import Mathlib

/-!
Shallow embedding of the scheduling-and-validation engine of the
school-timetable-management repository (src/types/index.ts,
src/store/timetableStore.ts, src/utils — the unnamed utils file), together
with theorems settling the frozen claims about it.

Modelling conventions:
* JS `number` ids and periods are `Nat`; `weeklyLectures` is `Nat`;
  days are `String`, as in the source.
* JS `Record` objects keyed by ids are modelled as association lists with
  first-match lookup and in-place overwrite (`lookupA` / `setA`), which is
  the JS semantics of assignment to an existing key.
* `uuidv4()` entry ids are modelled by a deterministic fresh-id supply:
  the store mutation takes the fresh id as an argument, and the generator
  threads a counter.  Claims never depend on id values, only on freshness.
* `generateErrorId` embeds `Date.now()`, so the `id` field of a
  `ValidationError` is nondeterministic; it is dropped from the model.
  All claims about issues are stated on (severity, message) only, and the
  message template strings are modelled by an inductive `Msg` with one
  constructor per template, keeping the template arguments.
* `Math.sqrt` acts on IEEE doubles; the scoring code is modelled over `ℚ`
  with the square root left abstract (a parameter `sqrtA : ℚ → ℚ`).  No
  claim depends on the value of a square root.
* `Array.prototype.sort` (stable since ES2019) is modelled by a stable
  insertion sort `stableSort`; any two stable sorts of the same total
  preorder agree, so this is extensionally the source's sort.
* Code that faults at runtime (property access on `undefined`) is modelled
  with `Option`, `none` meaning the fault.
-/

namespace SchoolTimetable

/-- Day constants from src/constants (DAYS). -/
def DAYS : List String := ["Monday", "Tuesday", "Wednesday", "Thursday", "Friday"]

/-- Period constants from src/constants (PERIODS = [1,...,7]). -/
def PERIODS : List Nat := [1, 2, 3, 4, 5, 6, 7]

/-- TimeSlot from src/types/index.ts. -/
structure TimeSlot where
  day : String
  period : Nat
deriving DecidableEq, Repr

/-- Subject from src/types/index.ts. -/
structure Subject where
  id : Nat
  name : String
  weeklyLectures : Nat
deriving DecidableEq, Repr

/-- Teacher from src/types/index.ts. -/
structure Teacher where
  id : Nat
  name : String
  availableSlots : List TimeSlot
deriving DecidableEq, Repr

/-- TimetableEntry from src/types/index.ts.  The store's generator creates
entries without a `classId` (JS `undefined`), the add dialog passes one, so
the runtime value of the field is modelled as `Option String`. -/
structure TimetableEntry where
  id : String
  subjectId : Nat
  teacherId : Nat
  day : String
  period : Nat
  classId : Option String
deriving DecidableEq, Repr

/-- Severity of a validation issue (src/constants ERROR_SEVERITY). -/
inductive Severity where
  | error
  | warning
deriving DecidableEq, Repr

/-- The message templates appearing in the source, one constructor per
template literal, keeping the interpolated arguments. -/
inductive Msg where
  | insufficientLectures (subjectName : String) (count target : Nat)
  | excessLectures (subjectName : String) (count target : Nat)
  | dayOverload (subjectName : String) (count : Nat) (day : String)
  | doubleBooked (teacherName day : String) (period : Nat)
  | notAvailable (teacherName day : String) (period : Nat)
  | consecutive (subjectName day : String)
  | emptySlots (count : Nat)
  | distSuggestion
  | workloadSuggestion
  | difficultConcentration (day : String)
  | moveOccupied
  | moveTeacherUnavailable
deriving DecidableEq, Repr

/-- ValidationError from the source, with the nondeterministic
(`Date.now()`-based) `id` field dropped; see the header comment. -/
structure ValidationError where
  message : Msg
  severity : Severity
deriving DecidableEq, Repr

/-- Association-list lookup, first match; models JS `record[key]`. -/
def lookupA {β : Type} (l : List (Nat × β)) (k : Nat) : Option β :=
  (l.find? (fun p => p.1 == k)).map (fun p => p.2)

/-- Association-list overwrite; models JS `record[key] = v` (overwrites an
existing key in place, otherwise appends in insertion order). -/
def setA {β : Type} : List (Nat × β) → Nat → β → List (Nat × β)
  | [], k, v => [(k, v)]
  | (k', v') :: rest, k, v =>
      if k' == k then (k, v) :: rest else (k', v') :: setA rest k v

/-- Stable insertion of one element: `a` is placed after every earlier
element `b` with `le b a`, so equal elements keep their original order. -/
def insertStable {α : Type} (le : α → α → Bool) (a : α) : List α → List α
  | [] => [a]
  | b :: bs => if le b a then b :: insertStable le a bs else a :: b :: bs

/-- Stable sort (ascending in `le`); models the stable
`Array.prototype.sort`. -/
def stableSort {α : Type} (le : α → α → Bool) (l : List α) : List α :=
  l.foldl (fun acc a => insertStable le a acc) []

/-- formatTimeSlot from the utils file. -/
def formatTimeSlot (day : String) (period : Nat) : String :=
  day ++ "-" ++ toString period

/-- countSubjectLectures from the utils file builds a record with one key
per subject, and every read of that record is at a subject's id with a
`|| 0` default; the value read is exactly this count. -/
def countSubjectLectures (timetableEntries : List TimetableEntry) (subjectId : Nat) : Nat :=
  timetableEntries.countP (fun e => e.subjectId == subjectId)

/-- Double-booking loop of checkTeacherConflicts: one error is pushed for
every entry whose slot key is already in the `teacherSlots` record, and the
key is (re)recorded after each entry. -/
def doubleBookingErrors (teacherName : String) :
    List TimetableEntry → List String → List ValidationError
  | [], _ => []
  | e :: rest, seen =>
      let key := formatTimeSlot e.day e.period
      (if seen.contains key then
        [⟨Msg.doubleBooked teacherName e.day e.period, Severity.error⟩]
      else []) ++ doubleBookingErrors teacherName rest (key :: seen)

/-- checkTeacherConflicts from the utils file: filter the teacher's
entries, push all double-booking errors, then all availability errors. -/
def checkTeacherConflicts (teacher : Teacher) (timetableEntries : List TimetableEntry) :
    List ValidationError :=
  let teacherEntries := timetableEntries.filter (fun e => e.teacherId == teacher.id)
  doubleBookingErrors teacher.name teacherEntries []
    ++ (teacherEntries.filter (fun e =>
          !(teacher.availableSlots.any (fun s => s.day == e.day && s.period == e.period)))).map
        (fun e => ⟨Msg.notAvailable teacher.name e.day e.period, Severity.error⟩)

/-- Window scan of checkConsecutivePeriods: for every index i of the
day-sorted entry list, positions i, i+1, i+2 sharing a subjectId (and the
subject being found) produce one warning.  Period adjacency is not
examined by the source. -/
def consecWindows (subjects : List Subject) (day : String) :
    List TimetableEntry → List ValidationError
  | a :: b :: c :: rest =>
      (if a.subjectId == b.subjectId && a.subjectId == c.subjectId then
        match subjects.find? (fun s => s.id == a.subjectId) with
        | some s => [⟨Msg.consecutive s.name day, Severity.warning⟩]
        | none => []
      else []) ++ consecWindows subjects day (b :: c :: rest)
  | _ => []

/-- checkConsecutivePeriods from the utils file. -/
def checkConsecutivePeriods (timetableEntries : List TimetableEntry)
    (subjects : List Subject) (days : List String) : List ValidationError :=
  days.flatMap (fun day =>
    consecWindows subjects day
      (stableSort (fun a b => decide (a.period ≤ b.period))
        (timetableEntries.filter (fun e => e.day == day))))

/-- calculateDistributionScore from the utils file, over `ℚ` with the
square root abstract.  Per-day counts are taken for days of the domain
(the source seeds one record key per domain day). -/
def calculateDistributionScore (sqrtA : ℚ → ℚ) (timetableEntries : List TimetableEntry)
    (subjects : List Subject) (days : List String) : ℚ :=
  subjects.foldl (fun score s =>
    if s.weeklyLectures ≤ 1 then score
    else
      let values := days.map (fun d =>
        ((timetableEntries.countP (fun e => e.subjectId == s.id && e.day == d) : ℚ)))
      let avg := values.sum / (values.length : ℚ)
      let avgSquareDiff := (values.map (fun v => (v - avg) ^ 2)).sum / (values.length : ℚ)
      score + 1 / (1 + sqrtA avgSquareDiff)) 0

/-- Per-teacher lecture counts of evaluateTeacherWorkloadBalance: a record
keyed by teacher id, seeded with 0, incremented only for known keys. -/
def lecturesPerTeacher (timetableEntries : List TimetableEntry) (teachers : List Teacher) :
    List (Nat × Nat) :=
  timetableEntries.foldl (fun acc e =>
      match lookupA acc e.teacherId with
      | some v => setA acc e.teacherId (v + 1)
      | none => acc)
    (teachers.foldl (fun acc t => setA acc t.id 0) [])

/-- evaluateTeacherWorkloadBalance from the utils file (population standard
deviation of the per-teacher counts), over `ℚ` with the square root
abstract. -/
def evaluateTeacherWorkloadBalance (sqrtA : ℚ → ℚ) (timetableEntries : List TimetableEntry)
    (teachers : List Teacher) : ℚ :=
  let values := (lecturesPerTeacher timetableEntries teachers).map (fun p => (p.2 : ℚ))
  let avg := values.sum / (values.length : ℚ)
  let avgSquareDiff := (values.map (fun v => (v - avg) ^ 2)).sum / (values.length : ℚ)
  sqrtA avgSquareDiff

/-- suggestTimetableImprovements from the utils file. -/
def suggestTimetableImprovements (sqrtA : ℚ → ℚ) (timetableEntries : List TimetableEntry)
    (subjects : List Subject) (teachers : List Teacher) (days : List String) : List Msg :=
  (if calculateDistributionScore sqrtA timetableEntries subjects days
      < (subjects.length : ℚ) * (7 / 10) then [Msg.distSuggestion] else [])
  ++ (if evaluateTeacherWorkloadBalance sqrtA timetableEntries teachers > 2 then
        [Msg.workloadSuggestion] else [])
  ++ days.filterMap (fun day =>
      let difficultSubjects := subjects.filter (fun s => 4 ≤ s.weeklyLectures)
      let onDay := (timetableEntries.filter (fun e =>
        e.day == day && difficultSubjects.any (fun s => s.id == e.subjectId))).length
      if difficultSubjects.length < onDay then some (Msg.difficultConcentration day) else none)

/-- Lookup in the availability record built by createTeacherAvailabilityMap:
the record maps teacher id to the set of formatted slot keys; for duplicate
teacher ids the later teacher's row overwrites the earlier one. -/
def teacherAvailabilityLookup (teachers : List Teacher) (teacherId : Nat) (key : String) : Bool :=
  match teachers.reverse.find? (fun t => t.id == teacherId) with
  | some t => t.availableSlots.any (fun s => formatTimeSlot s.day s.period == key)
  | none => false

/-- Assignment loop of assignTeachersToSubjects: for each subject (in
sorted order) re-sort the teachers by remaining workload (descending,
stable) and take the first; with an empty teacher list the source reads
`.id` of `undefined` and faults, modelled as `none`. -/
def assignLoop (teachers : List Teacher) :
    List Subject → List (Nat × Int) → List (Nat × Nat) → Option (List (Nat × Nat))
  | [], _, acc => some acc
  | s :: rest, workloads, acc =>
      match stableSort (fun a b =>
          decide ((lookupA workloads b.id).getD 0 ≤ (lookupA workloads a.id).getD 0)) teachers with
      | [] => none
      | t :: _ =>
          assignLoop teachers rest
            (setA workloads t.id ((lookupA workloads t.id).getD 0 - (s.weeklyLectures : Int)))
            (setA acc s.id t.id)

/-- assignTeachersToSubjects from src/store/timetableStore.ts. -/
def assignTeachersToSubjects (subjects : List Subject) (teachers : List Teacher) :
    Option (List (Nat × Nat)) :=
  assignLoop teachers
    (stableSort (fun a b => decide (b.weeklyLectures ≤ a.weeklyLectures)) subjects)
    (teachers.foldl (fun acc t => setA acc t.id ((t.availableSlots.length : Int))) [])
    []

/-- findDayWithFewestLectures from src/store/timetableStore.ts: reduce over
all days with the first day as the initial accumulator (`days[0]`, the JS
string "undefined" when the day list is empty). -/
def findDayWithFewestLectures (subject : Subject) (timetable : List TimetableEntry)
    (days : List String) : String :=
  let perDay := fun d => timetable.countP (fun e => e.subjectId == subject.id && e.day == d)
  days.foldl (fun minDay day => if perDay day < perDay minDay then day else minDay)
    (days.headD "undefined")

/-- Mutable state threaded by the generation loop of generateTimetable:
the accumulated entries, the `filledSlots` key record, the
`scheduledLectures` record, and the fresh-id counter modelling uuidv4. -/
structure GenState where
  timetable : List TimetableEntry
  filledSlots : List String
  scheduledLectures : List (Nat × Nat)
  nextId : Nat
deriving DecidableEq, Repr

/-- One successful placement inside generateTimetable. -/
def placeEntry (st : GenState) (subjectId teacherId : Nat) (day : String) (period : Nat) :
    GenState where
  timetable := st.timetable ++ [⟨toString st.nextId, subjectId, teacherId, day, period, none⟩]
  filledSlots := st.filledSlots ++ [formatTimeSlot day period]
  scheduledLectures :=
    setA st.scheduledLectures subjectId ((lookupA st.scheduledLectures subjectId).getD 0 + 1)
  nextId := st.nextId + 1

/-- The inner period loop of generateTimetable: first period 1..N whose
slot is unfilled, whose teacher is available, and where the teacher is not
already booked. -/
def scanPeriods (teachers : List Teacher) (st : GenState) (teacherId : Nat) (day : String)
    (periodsPerDay : Nat) : Option Nat :=
  (List.range' 1 periodsPerDay).find? (fun period =>
    !(st.filledSlots.contains (formatTimeSlot day period))
    && teacherAvailabilityLookup teachers teacherId (formatTimeSlot day period)
    && !(st.timetable.any (fun e =>
          e.teacherId == teacherId && e.day == day && e.period == period)))

/-- The fallback day loop of generateTimetable: scan the remaining days in
domain order, skipping the already-tried preferred day. -/
def scanOtherDays (teachers : List Teacher) (st : GenState) (teacherId : Nat)
    (targetDay : String) (periodsPerDay : Nat) : List String → Option (String × Nat)
  | [] => none
  | d :: rest =>
      if d == targetDay then scanOtherDays teachers st teacherId targetDay periodsPerDay rest
      else
        match scanPeriods teachers st teacherId d periodsPerDay with
        | some p => some (d, p)
        | none => scanOtherDays teachers st teacherId targetDay periodsPerDay rest

/-- Body of one subject's turn inside a pass of generateTimetable.  The
Bool accumulator is `allSubjectsScheduled`: it is cleared whenever a
subject is below target at its turn (even if an entry then gets placed).
`if (!teacherId) continue` in the source also skips a teacher id of 0
(JS falsiness). -/
def passStep (teachers : List Teacher) (subjectTeacherMap : List (Nat × Nat))
    (days : List String) (periodsPerDay : Nat) (acc : GenState × Bool) (subject : Subject) :
    GenState × Bool :=
  let st := acc.1
  if subject.weeklyLectures ≤ (lookupA st.scheduledLectures subject.id).getD 0 then acc
  else
    match lookupA subjectTeacherMap subject.id with
    | none => (st, false)
    | some teacherId =>
        if teacherId == 0 then (st, false)
        else
          let targetDay := findDayWithFewestLectures subject st.timetable days
          match scanPeriods teachers st teacherId targetDay periodsPerDay with
          | some period => (placeEntry st subject.id teacherId targetDay period, false)
          | none =>
              match scanOtherDays teachers st teacherId targetDay periodsPerDay days with
              | some (d, p) => (placeEntry st subject.id teacherId d p, false)
              | none => (st, false)

/-- One full pass over the sorted subject list. -/
def doPass (teachers : List Teacher) (subjectTeacherMap : List (Nat × Nat))
    (days : List String) (periodsPerDay : Nat) (sortedSubjects : List Subject)
    (st : GenState) : GenState × Bool :=
  sortedSubjects.foldl (passStep teachers subjectTeacherMap days periodsPerDay) (st, true)

/-- The `while (!allSubjectsScheduled && maxAttempts > 0)` loop of
generateTimetable, fuelled by `maxAttempts = 1000`. -/
def genLoop (teachers : List Teacher) (subjectTeacherMap : List (Nat × Nat))
    (days : List String) (periodsPerDay : Nat) (sortedSubjects : List Subject) :
    Nat → GenState → GenState
  | 0, st => st
  | fuel + 1, st =>
      let next := doPass teachers subjectTeacherMap days periodsPerDay sortedSubjects st
      if next.2 then next.1
      else genLoop teachers subjectTeacherMap days periodsPerDay sortedSubjects fuel next.1

/-- generateTimetable from src/store/timetableStore.ts.  `none` models the
TypeError thrown by assignTeachersToSubjects on an empty teacher list. -/
def generateTimetable (subjects : List Subject) (teachers : List Teacher)
    (days : List String) (periodsPerDay : Nat) : Option (List TimetableEntry) :=
  match assignTeachersToSubjects subjects teachers with
  | none => none
  | some subjectTeacherMap =>
      some (genLoop teachers subjectTeacherMap days periodsPerDay
        (stableSort (fun a b => decide (b.weeklyLectures ≤ a.weeklyLectures)) subjects)
        1000 ⟨[], [], subjects.foldl (fun acc s => setA acc s.id 0) [], 0⟩).timetable

/-- The empty-slot check (check 4) of validateTimetable; note the source
uses the constant PERIODS.length for the per-day period count. -/
def emptySlotCheck (timetableEntries : List TimetableEntry) (subjects : List Subject)
    (days : List String) : List ValidationError :=
  let allSlots := days.flatMap (fun day => (List.range' 1 PERIODS.length).map (fun p => (day, p)))
  let emptySlots := allSlots.filter (fun slot =>
    !(timetableEntries.any (fun e => e.day == slot.1 && e.period == slot.2)))
  if 0 < emptySlots.length then
    if 0 < (subjects.filter (fun s =>
        countSubjectLectures timetableEntries s.id < s.weeklyLectures)).length then
      [⟨Msg.emptySlots emptySlots.length, Severity.warning⟩]
    else []
  else []

/-- validateTimetable from src/store/timetableStore.ts as the pure function
of (entries, subjects, teachers, days) it computes; issues are listed in
the source's push order. -/
def validateTimetable (sqrtA : ℚ → ℚ) (timetableEntries : List TimetableEntry)
    (subjects : List Subject) (teachers : List Teacher) (days : List String) :
    List ValidationError :=
  (subjects.flatMap (fun subject =>
    let lectureCount := countSubjectLectures timetableEntries subject.id
    (if lectureCount < subject.weeklyLectures then
      [⟨Msg.insufficientLectures subject.name lectureCount subject.weeklyLectures,
        Severity.error⟩]
    else if subject.weeklyLectures < lectureCount then
      [⟨Msg.excessLectures subject.name lectureCount subject.weeklyLectures, Severity.error⟩]
    else [])
    ++ (if subject.weeklyLectures ≤ days.length then
          days.filterMap (fun day =>
            let onDay := timetableEntries.countP (fun e =>
              e.subjectId == subject.id && e.day == day)
            if 1 < onDay then
              some ⟨Msg.dayOverload subject.name onDay day, Severity.warning⟩
            else none)
        else [])))
  ++ teachers.flatMap (fun t => checkTeacherConflicts t timetableEntries)
  ++ checkConsecutivePeriods timetableEntries subjects days
  ++ emptySlotCheck timetableEntries subjects days
  ++ (suggestTimetableImprovements sqrtA timetableEntries subjects teachers days).map
      (fun m => ⟨m, Severity.warning⟩)

/-- The zustand store state (the fields the engine reads and writes). -/
structure TimetableState where
  subjects : List Subject
  teachers : List Teacher
  days : List String
  periodsPerDay : Nat
  timetableEntries : List TimetableEntry
  validationErrors : List ValidationError
deriving DecidableEq, Repr

/-- The store action validateTimetable: recompute the issue list from the
current state, store it, and return it. -/
def validateStore (sqrtA : ℚ → ℚ) (st : TimetableState) :
    TimetableState × List ValidationError :=
  let errors := validateTimetable sqrtA st.timetableEntries st.subjects st.teachers st.days
  ({ st with validationErrors := errors }, errors)

/-- addTimetableEntry from src/store/timetableStore.ts: stamp a fresh id
(`newId` models `generateId()`), append unconditionally, then run the
validate pass.  The source performs no precondition checks. -/
def addTimetableEntry (sqrtA : ℚ → ℚ) (newId : String) (st : TimetableState)
    (entry : TimetableEntry) : TimetableState :=
  let withEntry := { st with timetableEntries := st.timetableEntries ++ [{ entry with id := newId }] }
  (validateStore sqrtA withEntry).1

/-- removeTimetableEntry from src/store/timetableStore.ts. -/
def removeTimetableEntry (sqrtA : ℚ → ℚ) (st : TimetableState) (id : String) :
    TimetableState :=
  (validateStore sqrtA
    { st with timetableEntries := st.timetableEntries.filter (fun e => !(e.id == id)) }).1

/-- moveTimetableEntry from src/store/timetableStore.ts.  An unknown
entryId returns the state untouched; a blocked move leaves the entries
untouched and appends one error-severity issue; a permitted move rewrites
day/period of every entry carrying the id and reruns the validate pass. -/
def moveTimetableEntry (sqrtA : ℚ → ℚ) (st : TimetableState) (entryId : String)
    (newDay : String) (newPeriod : Nat) : TimetableState :=
  match st.timetableEntries.find? (fun e => e.id == entryId) with
  | none => st
  | some entryToMove =>
      let isSlotEmpty := !(st.timetableEntries.any (fun e =>
        !(e.id == entryId) && e.day == newDay && e.period == newPeriod))
      let isTeacherAvail :=
        match st.teachers.find? (fun t => t.id == entryToMove.teacherId) with
        | some teacher =>
            teacher.availableSlots.any (fun s => s.day == newDay && s.period == newPeriod)
        | none => false
      if isSlotEmpty && isTeacherAvail then
        (validateStore sqrtA
          { st with timetableEntries := st.timetableEntries.map (fun e =>
              if e.id == entryId then { e with day := newDay, period := newPeriod } else e) }).1
      else
        { st with validationErrors := st.validationErrors ++
            [⟨if !isSlotEmpty then Msg.moveOccupied else Msg.moveTeacherUnavailable,
              Severity.error⟩] }

/-- Boolean pairwise check: `r` holds for every ordered pair of positions. -/
def pairwiseB {α : Type} (r : α → α → Bool) : List α → Bool
  | [] => true
  | a :: l => l.all (r a) && pairwiseB r l

/-- Hard constraint 1: no two entries share (day, period) within one class
scope. -/
def classSlotFree (entries : List TimetableEntry) : Bool :=
  pairwiseB (fun a b =>
    !(a.classId == b.classId && a.day == b.day && a.period == b.period)) entries

/-- Hard constraint 2: no teacher is double-booked across the whole grid. -/
def teacherSlotFree (entries : List TimetableEntry) : Bool :=
  pairwiseB (fun a b =>
    !(a.teacherId == b.teacherId && a.day == b.day && a.period == b.period)) entries

/-- Hard constraint 3: every entry sits in its teacher's availableSlots
(the teacher record being resolved by id lookup as the store does). -/
def availabilityOk (teachers : List Teacher) (entries : List TimetableEntry) : Bool :=
  entries.all (fun e =>
    match teachers.find? (fun t => t.id == e.teacherId) with
    | some t => t.availableSlots.any (fun s => s.day == e.day && s.period == e.period)
    | none => false)

/-- Entry identities are pairwise distinct (the data model's uniqueness of
the uuid entry id). -/
def idsDistinct (entries : List TimetableEntry) : Bool :=
  pairwiseB (fun a b => !(a.id == b.id)) entries

/-- All three hard constraints of the spec's data model. -/
def hardConstraintsOk (teachers : List Teacher) (entries : List TimetableEntry) : Bool :=
  classSlotFree entries && teacherSlotFree entries && availabilityOk teachers entries

/-- Run a sequence of moveTimetableEntry calls (entryId, day, period). -/
def applyMoves (sqrtA : ℚ → ℚ) (st : TimetableState) :
    List (String × String × Nat) → TimetableState
  | [] => st
  | c :: rest => applyMoves sqrtA (moveTimetableEntry sqrtA st c.1 c.2.1 c.2.2) rest

/-- Recognizer for the lecture-count rule's issues (shortfall or excess). -/
def isLectureCountIssue (er : ValidationError) : Bool :=
  match er.message with
  | Msg.insufficientLectures _ _ _ => true
  | Msg.excessLectures _ _ _ => true
  | _ => false

theorem length_insertStable {α : Type} (le : α → α → Bool) (a : α) (l : List α) :
    (insertStable le a l).length = l.length + 1 := by
  induction l with
  | nil => rfl
  | cons b bs ih =>
      simp only [insertStable]
      split
      · simp [ih]
      · simp

theorem length_foldl_insertStable {α : Type} (le : α → α → Bool) (l acc : List α) :
    (l.foldl (fun acc a => insertStable le a acc) acc).length = acc.length + l.length := by
  induction l generalizing acc with
  | nil => rfl
  | cons a tl ih => simp [List.foldl_cons, ih, length_insertStable]; omega

theorem length_stableSort {α : Type} (le : α → α → Bool) (l : List α) :
    (stableSort le l).length = l.length := by
  simp [stableSort, length_foldl_insertStable]

theorem mem_insertStable {α : Type} (le : α → α → Bool) (a x : α) (l : List α) :
    x ∈ insertStable le a l ↔ x = a ∨ x ∈ l := by
  induction l with
  | nil => simp [insertStable]
  | cons b bs ih =>
      simp only [insertStable]
      split
      · simp only [List.mem_cons, ih]
        tauto
      · simp only [List.mem_cons]

theorem mem_foldl_insertStable {α : Type} (le : α → α → Bool) (l acc : List α) (x : α) :
    x ∈ l.foldl (fun acc a => insertStable le a acc) acc ↔ x ∈ acc ∨ x ∈ l := by
  induction l generalizing acc with
  | nil => simp
  | cons a tl ih => simp [List.foldl_cons, ih, mem_insertStable]; tauto

theorem mem_stableSort {α : Type} (le : α → α → Bool) (l : List α) (x : α) :
    x ∈ stableSort le l ↔ x ∈ l := by
  simp [stableSort, mem_foldl_insertStable]

/-- C1 (amended): `addTimetableEntry` performs no precondition checks and
never fails: for every state and request it appends exactly the one new
entry (with the fresh id stamped on it) at the end of the entry list. -/
theorem c1_add_appends_unconditionally (sqrtA : ℚ → ℚ) (newId : String)
    (st : TimetableState) (entry : TimetableEntry) :
    (addTimetableEntry sqrtA newId st entry).timetableEntries
      = st.timetableEntries ++ [{ entry with id := newId }] := rfl

/-- C1 witness: the amended behaviour at a concrete occupied-slot request. -/
theorem c1_witness :
    (addTimetableEntry (fun _ => 0) "b"
        ⟨[⟨1, "Math", 5⟩], [⟨1, "Smith", [⟨"Monday", 1⟩]⟩], ["Monday"], 7,
          [⟨"a", 1, 1, "Monday", 1, some "X"⟩], []⟩
        ⟨"", 1, 1, "Monday", 1, some "X"⟩).timetableEntries
      = [⟨"a", 1, 1, "Monday", 1, some "X"⟩, ⟨"b", 1, 1, "Monday", 1, some "X"⟩] :=
  c1_add_appends_unconditionally (fun _ => 0) "b"
    ⟨[⟨1, "Math", 5⟩], [⟨1, "Smith", [⟨"Monday", 1⟩]⟩], ["Monday"], 7,
      [⟨"a", 1, 1, "Monday", 1, some "X"⟩], []⟩
    ⟨"", 1, 1, "Monday", 1, some "X"⟩

/-- C1 counterexample: a request for the already occupied slot
(Monday, 1) does not fail — the entry list grows from 1 to 2 entries, so
the add neither reports SlotOccupied nor leaves the list unchanged. -/
theorem c1_counterexample :
    ([(⟨"a", 1, 1, "Monday", 1, some "X"⟩ : TimetableEntry)].any
        (fun e => e.day == "Monday" && e.period == 1)) = true
    ∧ (addTimetableEntry (fun _ => 0) "b"
        ⟨[⟨1, "Math", 5⟩], [⟨1, "Smith", [⟨"Monday", 1⟩]⟩], ["Monday"], 7,
          [⟨"a", 1, 1, "Monday", 1, some "X"⟩], []⟩
        ⟨"", 1, 1, "Monday", 1, some "X"⟩).timetableEntries.length = 2 := by
  constructor
  · decide
  · rfl

/-- C3 (amended): with an empty teacher list, `assignTeachersToSubjects`
never produces an explicit NoTeachersAvailable outcome: for a nonempty
subject list it faults (the source reads `.id` of `undefined`, modelled
`none`), and for an empty subject list it returns the empty assignment. -/
theorem c3_assign_empty_teachers :
    (∀ subjects : List Subject, subjects ≠ [] →
      assignTeachersToSubjects subjects [] = none)
    ∧ (∀ teachers : List Teacher, assignTeachersToSubjects [] teachers = some []) := by
  constructor
  · intro subjects h
    unfold assignTeachersToSubjects
    have hlen : (stableSort (fun a b => decide (b.weeklyLectures ≤ a.weeklyLectures))
        subjects).length = subjects.length := length_stableSort _ _
    cases hs : stableSort (fun a b => decide (b.weeklyLectures ≤ a.weeklyLectures)) subjects with
    | nil =>
        rw [hs] at hlen
        exact absurd (List.length_eq_zero.mp hlen.symm) h
    | cons a tl => rfl
  · intro teachers; rfl

/-- C3 witness: the amended behaviour at concrete inputs. -/
theorem c3_witness :
    assignTeachersToSubjects [⟨2, "Art", 1⟩] [] = none
    ∧ assignTeachersToSubjects [] [⟨1, "Smith", []⟩] = some [] :=
  ⟨c3_assign_empty_teachers.1 [⟨2, "Art", 1⟩] (by decide),
   c3_assign_empty_teachers.2 [⟨1, "Smith", []⟩]⟩

/-- C3 counterexample: with one subject and no teachers the assignment
faults (modelled `none`) instead of returning an explicit
NoTeachersAvailable outcome — no such outcome value exists in the code. -/
theorem c3_counterexample :
    assignTeachersToSubjects [⟨1, "Math", 5⟩] [] = none := by
  rfl

/-- C10: moving an entryId that matches no entry is a complete no-op on
the whole store state: entries untouched and no issue appended. -/
theorem c10_move_unknown_id_noop (sqrtA : ℚ → ℚ) (st : TimetableState)
    (entryId newDay : String) (newPeriod : Nat)
    (h : ∀ e ∈ st.timetableEntries, e.id ≠ entryId) :
    moveTimetableEntry sqrtA st entryId newDay newPeriod = st := by
  have hfind : st.timetableEntries.find? (fun e => e.id == entryId) = none :=
    List.find?_eq_none.mpr (fun x hx => by simpa using h x hx)
  unfold moveTimetableEntry
  rw [hfind]

/-- C10 witness: the no-op at a concrete store and unknown id. -/
theorem c10_witness :
    moveTimetableEntry (fun _ => 0)
        ⟨[⟨1, "Math", 5⟩], [⟨1, "Smith", [⟨"Monday", 1⟩]⟩], ["Monday"], 7,
          [⟨"a", 1, 1, "Monday", 1, none⟩], []⟩
        "zzz" "Monday" 2
      = ⟨[⟨1, "Math", 5⟩], [⟨1, "Smith", [⟨"Monday", 1⟩]⟩], ["Monday"], 7,
          [⟨"a", 1, 1, "Monday", 1, none⟩], []⟩ :=
  c10_move_unknown_id_noop (fun _ => 0) _ "zzz" "Monday" 2 (by decide)

/-- C8: the validate pass is a pure function of the unchanged state: run
twice in a row it yields issue lists equal as multisets of
(severity, message), and neither run modifies the entry list. -/
theorem c8_validate_idempotent (sqrtA : ℚ → ℚ) (st : TimetableState) :
    (((validateStore sqrtA st).2.map (fun er => (er.severity, er.message)) : List (Severity × Msg))
        : Multiset (Severity × Msg))
      = (((validateStore sqrtA (validateStore sqrtA st).1).2.map
          (fun er => (er.severity, er.message)) : List (Severity × Msg)) : Multiset (Severity × Msg))
    ∧ (validateStore sqrtA st).1.timetableEntries = st.timetableEntries
    ∧ (validateStore sqrtA (validateStore sqrtA st).1).1.timetableEntries
        = st.timetableEntries :=
  ⟨rfl, rfl, rfl⟩

/-- C8 witness: idempotence at a concrete state. -/
theorem c8_witness :
    let st : TimetableState :=
      ⟨[⟨1, "Math", 5⟩], [⟨1, "Smith", [⟨"Monday", 1⟩]⟩], ["Monday"], 7,
        [⟨"a", 1, 1, "Monday", 1, none⟩], []⟩
    (((validateStore (fun _ => 0) st).2.map (fun er => (er.severity, er.message))
        : List (Severity × Msg)) : Multiset (Severity × Msg))
      = (((validateStore (fun _ => 0) (validateStore (fun _ => 0) st).1).2.map
          (fun er => (er.severity, er.message)) : List (Severity × Msg))
          : Multiset (Severity × Msg))
    ∧ (validateStore (fun _ => 0) st).1.timetableEntries = st.timetableEntries
    ∧ (validateStore (fun _ => 0) (validateStore (fun _ => 0) st).1).1.timetableEntries
        = st.timetableEntries :=
  c8_validate_idempotent (fun _ => 0) _

/-- C5: a move whose precondition fails (target slot held by a different
entry, or the mover's teacher lacking the target slot) leaves every
timetable entry unchanged and appends exactly one error-severity issue
naming the blocking constraint. -/
theorem c5_move_blocked (sqrtA : ℚ → ℚ) (st : TimetableState) (entryId newDay : String)
    (newPeriod : Nat) (e : TimetableEntry)
    (hfind : st.timetableEntries.find? (fun x => x.id == entryId) = some e)
    (hblock :
      (∃ x ∈ st.timetableEntries, x.id ≠ entryId ∧ x.day = newDay ∧ x.period = newPeriod)
      ∨ ∃ t, st.teachers.find? (fun x => x.id == e.teacherId) = some t
          ∧ ∀ s ∈ t.availableSlots, ¬(s.day = newDay ∧ s.period = newPeriod)) :
    (moveTimetableEntry sqrtA st entryId newDay newPeriod).timetableEntries
        = st.timetableEntries
    ∧ ∃ m, (moveTimetableEntry sqrtA st entryId newDay newPeriod).validationErrors
          = st.validationErrors ++ [⟨m, Severity.error⟩]
        ∧ (m = Msg.moveOccupied ∨ m = Msg.moveTeacherUnavailable) := by
  rcases hblock with ⟨x, hx, hid, hday, hper⟩ | ⟨t, ht, hall⟩
  · have hany : (st.timetableEntries.any (fun y =>
        !(y.id == entryId) && y.day == newDay && y.period == newPeriod)) = true := by
      refine List.any_eq_true.mpr ⟨x, hx, ?_⟩
      simp [hid, hday, hper]
    have key : moveTimetableEntry sqrtA st entryId newDay newPeriod
        = { st with validationErrors :=
              st.validationErrors ++ [⟨Msg.moveOccupied, Severity.error⟩] } := by
      unfold moveTimetableEntry
      rw [hfind]
      simp [hany]
    rw [key]
    exact ⟨rfl, Msg.moveOccupied, rfl, Or.inl rfl⟩
  · have hav : (t.availableSlots.any (fun s =>
        s.day == newDay && s.period == newPeriod)) = false := by
      refine List.any_eq_false.mpr (fun s hs => ?_)
      have := hall s hs
      simp only [Bool.and_eq_true, beq_iff_eq]
      tauto
    cases hempty : (st.timetableEntries.any (fun y =>
        !(y.id == entryId) && y.day == newDay && y.period == newPeriod)) with
    | true =>
        have key : moveTimetableEntry sqrtA st entryId newDay newPeriod
            = { st with validationErrors :=
                  st.validationErrors ++ [⟨Msg.moveOccupied, Severity.error⟩] } := by
          unfold moveTimetableEntry
          rw [hfind]
          simp [hempty, ht, hav]
        rw [key]
        exact ⟨rfl, Msg.moveOccupied, rfl, Or.inl rfl⟩
    | false =>
        have key : moveTimetableEntry sqrtA st entryId newDay newPeriod
            = { st with validationErrors :=
                  st.validationErrors ++ [⟨Msg.moveTeacherUnavailable, Severity.error⟩] } := by
          unfold moveTimetableEntry
          rw [hfind]
          simp [hempty, ht, hav]
        rw [key]
        exact ⟨rfl, Msg.moveTeacherUnavailable, rfl, Or.inr rfl⟩

/-- C5 witness: scenario D — moving entry "a" onto (Monday, 2), which is
occupied by the different entry "b", fails, keeps both entries in place
and appends one error issue. -/
theorem c5_witness :
    (moveTimetableEntry (fun _ => 0)
        ⟨[⟨1, "Math", 5⟩], [⟨1, "Smith", [⟨"Monday", 1⟩, ⟨"Monday", 2⟩]⟩], ["Monday"], 7,
          [⟨"a", 1, 1, "Monday", 1, none⟩, ⟨"b", 1, 1, "Monday", 2, none⟩], []⟩
        "a" "Monday" 2).timetableEntries
      = [⟨"a", 1, 1, "Monday", 1, none⟩, ⟨"b", 1, 1, "Monday", 2, none⟩]
    ∧ ∃ m, (moveTimetableEntry (fun _ => 0)
        ⟨[⟨1, "Math", 5⟩], [⟨1, "Smith", [⟨"Monday", 1⟩, ⟨"Monday", 2⟩]⟩], ["Monday"], 7,
          [⟨"a", 1, 1, "Monday", 1, none⟩, ⟨"b", 1, 1, "Monday", 2, none⟩], []⟩
        "a" "Monday" 2).validationErrors
        = [] ++ [⟨m, Severity.error⟩]
      ∧ (m = Msg.moveOccupied ∨ m = Msg.moveTeacherUnavailable) :=
  c5_move_blocked (fun _ => 0)
    ⟨[⟨1, "Math", 5⟩], [⟨1, "Smith", [⟨"Monday", 1⟩, ⟨"Monday", 2⟩]⟩], ["Monday"], 7,
      [⟨"a", 1, 1, "Monday", 1, none⟩, ⟨"b", 1, 1, "Monday", 2, none⟩], []⟩
    "a" "Monday" 2 ⟨"a", 1, 1, "Monday", 1, none⟩ (by decide)
    (Or.inl ⟨⟨"b", 1, 1, "Monday", 2, none⟩, by decide, by decide, rfl, rfl⟩)

theorem consecWindows_length_of_same (subjects : List Subject) (day : String) (sid : Nat)
    (s : Subject) (hfind : subjects.find? (fun x => x.id == sid) = some s) :
    ∀ l : List TimetableEntry, (∀ e ∈ l, e.subjectId = sid) →
      (consecWindows subjects day l).length = l.length - 2 := by
  intro l
  induction l with
  | nil => intro _; rfl
  | cons a tl ih =>
      cases tl with
      | nil => intro _; rfl
      | cons b tl2 =>
          cases tl2 with
          | nil => intro _; rfl
          | cons c rest =>
              intro h
              have ha : a.subjectId = sid := h a (by simp)
              have hb : b.subjectId = sid := h b (by simp)
              have hc : c.subjectId = sid := h c (by simp)
              have hrec := ih (fun e he => h e (List.mem_cons_of_mem a he))
              simp only [consecWindows, ha, hb, hc, beq_self_eq_true, Bool.and_self, if_true,
                hfind, List.length_append, List.length_cons, hrec]
              simp
              omega

/-- C4 (amended): the consecutive-subject check scans windows of three
successive entries of the period-sorted day list and warns once per window
with a single subjectId, without examining period adjacency: a day whose
entries all carry one subject yields (entry count − 2) warnings, so a run
of 4 yields 2 warnings and three mutually non-adjacent periods still
yield 1. -/
theorem c4_warnings_per_window (es : List TimetableEntry) (s : Subject)
    (subjects : List Subject) (day : String)
    (hday : ∀ e ∈ es, e.day = day) (hsub : ∀ e ∈ es, e.subjectId = s.id)
    (hfind : subjects.find? (fun x => x.id == s.id) = some s) :
    (checkConsecutivePeriods es subjects [day]).length = es.length - 2 := by
  have hfilter : es.filter (fun e => e.day == day) = es :=
    List.filter_eq_self.mpr (fun e he => by simp [hday e he])
  have hlen : (stableSort (fun a b => decide (a.period ≤ b.period)) es).length = es.length :=
    length_stableSort _ _
  have hmem : ∀ e ∈ stableSort (fun a b => decide (a.period ≤ b.period)) es,
      e.subjectId = s.id :=
    fun e he => hsub e ((mem_stableSort _ _ _).mp he)
  have := consecWindows_length_of_same subjects day s.id s hfind
    (stableSort (fun a b => decide (a.period ≤ b.period)) es) hmem
  simp only [checkConsecutivePeriods, List.flatMap_cons, List.flatMap_nil, List.append_nil,
    hfilter, this, hlen]

/-- C4 witness: a single run of four consecutive same-subject periods on
one day produces two warnings (one per window), not one. -/
theorem c4_witness :
    (checkConsecutivePeriods
        [⟨"a", 1, 1, "Monday", 1, none⟩, ⟨"b", 1, 1, "Monday", 2, none⟩,
         ⟨"c", 1, 1, "Monday", 3, none⟩, ⟨"d", 1, 1, "Monday", 4, none⟩]
        [⟨1, "Math", 5⟩] ["Monday"]).length = 2 := by
  have := c4_warnings_per_window
    [⟨"a", 1, 1, "Monday", 1, none⟩, ⟨"b", 1, 1, "Monday", 2, none⟩,
     ⟨"c", 1, 1, "Monday", 3, none⟩, ⟨"d", 1, 1, "Monday", 4, none⟩]
    ⟨1, "Math", 5⟩ [⟨1, "Math", 5⟩] "Monday"
    (by decide) (by decide) (by decide)
  simpa using this

/-- C4 counterexample: three same-subject entries on Monday at the
mutually non-adjacent periods 1, 3, 5 produce one warning, although the
claim (requiring period numbers differing by 1) predicts none. -/
theorem c4_counterexample :
    (checkConsecutivePeriods
        [⟨"a", 1, 1, "Monday", 1, none⟩, ⟨"b", 1, 1, "Monday", 3, none⟩,
         ⟨"c", 1, 1, "Monday", 5, none⟩]
        [⟨1, "Math", 5⟩] ["Monday"]).length = 1 := by
  decide

theorem suggest_shape (sqrtA : ℚ → ℚ) (timetableEntries : List TimetableEntry)
    (subjects : List Subject) (teachers : List Teacher) (days : List String) :
    ∀ m ∈ suggestTimetableImprovements sqrtA timetableEntries subjects teachers days,
      m = Msg.distSuggestion ∨ m = Msg.workloadSuggestion
        ∨ ∃ d, m = Msg.difficultConcentration d := by
  intro m hm
  unfold suggestTimetableImprovements at hm
  rcases List.mem_append.mp hm with h | h
  · rcases List.mem_append.mp h with h1 | h2
    · left
      split at h1 <;> simp_all
    · right; left
      split at h2 <;> simp_all
  · right; right
    obtain ⟨d, _, hd⟩ := List.mem_filterMap.mp h
    dsimp only at hd
    split at hd
    · exact ⟨d, (Option.some_inj.mp hd).symm⟩
    · exact absurd hd (by simp)

theorem filter_lecture_of_suggestions (sqrtA : ℚ → ℚ)
    (timetableEntries : List TimetableEntry) (subjects : List Subject)
    (teachers : List Teacher) (days : List String) :
    ((suggestTimetableImprovements sqrtA timetableEntries subjects teachers days).map
      (fun m => (⟨m, Severity.warning⟩ : ValidationError))).filter isLectureCountIssue = [] := by
  rw [List.filter_eq_nil_iff]
  intro er her
  obtain ⟨m, hm, rfl⟩ := List.mem_map.mp her
  rcases suggest_shape sqrtA timetableEntries subjects teachers days m hm with h | h | ⟨d, h⟩
    <;> subst h <;> simp [isLectureCountIssue]

/-- C6: scenario A — one subject with weeklyLectures 2, one teacher
available on every slot of the 1-day × 2-period domain: generateTimetable
places exactly the two entries, at periods 1 and 2 of the single day, for
that subject and teacher, and the validate pass on the result contains no
lecture-count (shortfall or excess) issue. -/
theorem c6_scenario_a (sqrtA : ℚ → ℚ) :
    generateTimetable [⟨1, "Math", 2⟩] [⟨1, "Smith", [⟨"Monday", 1⟩, ⟨"Monday", 2⟩]⟩]
        ["Monday"] 2
      = some [⟨"0", 1, 1, "Monday", 1, none⟩, ⟨"1", 1, 1, "Monday", 2, none⟩]
    ∧ (validateTimetable sqrtA
        [⟨"0", 1, 1, "Monday", 1, none⟩, ⟨"1", 1, 1, "Monday", 2, none⟩]
        [⟨1, "Math", 2⟩] [⟨1, "Smith", [⟨"Monday", 1⟩, ⟨"Monday", 2⟩]⟩]
        ["Monday"]).filter isLectureCountIssue = [] := by
  constructor
  · decide
  · unfold validateTimetable
    simp only [List.filter_append, filter_lecture_of_suggestions, List.append_nil]
    decide

/-- C6 witness: the scenario at a concrete square-root interpretation. -/
theorem c6_witness :
    generateTimetable [⟨1, "Math", 2⟩] [⟨1, "Smith", [⟨"Monday", 1⟩, ⟨"Monday", 2⟩]⟩]
        ["Monday"] 2
      = some [⟨"0", 1, 1, "Monday", 1, none⟩, ⟨"1", 1, 1, "Monday", 2, none⟩]
    ∧ (validateTimetable (fun _ => 0)
        [⟨"0", 1, 1, "Monday", 1, none⟩, ⟨"1", 1, 1, "Monday", 2, none⟩]
        [⟨1, "Math", 2⟩] [⟨1, "Smith", [⟨"Monday", 1⟩, ⟨"Monday", 2⟩]⟩]
        ["Monday"]).filter isLectureCountIssue = [] :=
  c6_scenario_a (fun _ => 0)

theorem stableSort_ne_nil {α : Type} (le : α → α → Bool) (l : List α) (h : l ≠ []) :
    stableSort le l ≠ [] := by
  intro hnil
  have := length_stableSort le l
  rw [hnil] at this
  exact h (List.length_eq_zero.mp this.symm)

theorem assignLoop_isSome (teachers : List Teacher) (h : teachers ≠ []) :
    ∀ (subjects : List Subject) (workloads : List (Nat × Int)) (acc : List (Nat × Nat)),
      (assignLoop teachers subjects workloads acc).isSome = true := by
  intro subjects
  induction subjects with
  | nil => intro _ _; rfl
  | cons s rest ih =>
      intro w acc
      unfold assignLoop
      cases hsort : stableSort (fun a b =>
          decide ((lookupA w b.id).getD 0 ≤ (lookupA w a.id).getD 0)) teachers with
      | nil => exact absurd hsort (stableSort_ne_nil _ _ h)
      | cons t ts => exact ih _ _

theorem genLoop_step (teachers : List Teacher) (subjectTeacherMap : List (Nat × Nat))
    (days : List String) (periodsPerDay : Nat) (sortedSubjects : List Subject)
    (fuel : Nat) (st st2 : GenState)
    (h : doPass teachers subjectTeacherMap days periodsPerDay sortedSubjects st
          = (st2, false)) :
    genLoop teachers subjectTeacherMap days periodsPerDay sortedSubjects (fuel + 1) st
      = genLoop teachers subjectTeacherMap days periodsPerDay sortedSubjects fuel st2 := by
  conv_lhs => unfold genLoop
  rw [h]
  rfl

theorem genLoop_fix (teachers : List Teacher) (subjectTeacherMap : List (Nat × Nat))
    (days : List String) (periodsPerDay : Nat) (sortedSubjects : List Subject)
    (st : GenState)
    (h : doPass teachers subjectTeacherMap days periodsPerDay sortedSubjects st = (st, false)) :
    ∀ fuel, genLoop teachers subjectTeacherMap days periodsPerDay sortedSubjects fuel st = st := by
  intro fuel
  induction fuel with
  | zero => rfl
  | succ n ih =>
      unfold genLoop
      rw [h]
      simpa using ih

/-- C7 (amended): the generation loop is fuelled by the fixed
1000-pass ceiling and stops as soon as a pass reports every subject at
target; whenever the teacher list is nonempty the generator returns an
entry set (it cannot fault or diverge), and on the saturation scenario —
one teacher with only 2 available slots, one subject needing 5 lectures —
it returns exactly 2 entries (under-filled, 2 < 5) and the validate pass
reports the shortfall as an error. -/
theorem c7_bounded_generation (sqrtA : ℚ → ℚ) :
    (∀ (subjects : List Subject) (teachers : List Teacher) (days : List String)
        (periodsPerDay : Nat), teachers ≠ [] →
      (generateTimetable subjects teachers days periodsPerDay).isSome = true)
    ∧ (∀ (teachers : List Teacher) (subjectTeacherMap : List (Nat × Nat))
        (days : List String) (periodsPerDay : Nat) (sortedSubjects : List Subject)
        (st : GenState) (fuel : Nat),
        (doPass teachers subjectTeacherMap days periodsPerDay sortedSubjects st).2 = true →
        genLoop teachers subjectTeacherMap days periodsPerDay sortedSubjects (fuel + 1) st
          = (doPass teachers subjectTeacherMap days periodsPerDay sortedSubjects st).1)
    ∧ generateTimetable [⟨1, "Math", 5⟩] [⟨1, "Smith", [⟨"Monday", 1⟩, ⟨"Monday", 2⟩]⟩] DAYS 7
        = some [⟨"0", 1, 1, "Monday", 1, none⟩, ⟨"1", 1, 1, "Monday", 2, none⟩]
    ∧ (2 : Nat) < 5
    ∧ ⟨Msg.insufficientLectures "Math" 2 5, Severity.error⟩
        ∈ validateTimetable sqrtA
            [⟨"0", 1, 1, "Monday", 1, none⟩, ⟨"1", 1, 1, "Monday", 2, none⟩]
            [⟨1, "Math", 5⟩] [⟨1, "Smith", [⟨"Monday", 1⟩, ⟨"Monday", 2⟩]⟩] DAYS := by
  refine ⟨?_, ?_, ?_, by decide, ?_⟩
  · intro subjects teachers days ppd h
    unfold generateTimetable
    cases hassign : assignTeachersToSubjects subjects teachers with
    | none =>
        exact absurd hassign (by
          unfold assignTeachersToSubjects
          intro hc
          have := assignLoop_isSome teachers h
            (stableSort (fun a b => decide (b.weeklyLectures ≤ a.weeklyLectures)) subjects)
            (teachers.foldl (fun acc t => setA acc t.id ((t.availableSlots.length : Int))) [])
            []
          rw [hc] at this
          exact Bool.false_ne_true this)
    | some tmap => rfl
  · intro teachers tmap days ppd sorted st fuel h
    unfold genLoop
    cases hp : doPass teachers tmap days ppd sorted st with
    | mk a b =>
        rw [hp] at h
        simp at h
        subst h
        rfl
  · have e1 : doPass [⟨1, "Smith", [⟨"Monday", 1⟩, ⟨"Monday", 2⟩]⟩] [(1, 1)] DAYS 7
        [⟨1, "Math", 5⟩] ⟨[], [], [(1, 0)], 0⟩
        = (⟨[⟨"0", 1, 1, "Monday", 1, none⟩], ["Monday-1"], [(1, 1)], 1⟩, false) := by decide
    have e2 : doPass [⟨1, "Smith", [⟨"Monday", 1⟩, ⟨"Monday", 2⟩]⟩] [(1, 1)] DAYS 7
        [⟨1, "Math", 5⟩] ⟨[⟨"0", 1, 1, "Monday", 1, none⟩], ["Monday-1"], [(1, 1)], 1⟩
        = (⟨[⟨"0", 1, 1, "Monday", 1, none⟩, ⟨"1", 1, 1, "Monday", 2, none⟩],
            ["Monday-1", "Monday-2"], [(1, 2)], 2⟩, false) := by decide
    have e3 : doPass [⟨1, "Smith", [⟨"Monday", 1⟩, ⟨"Monday", 2⟩]⟩] [(1, 1)] DAYS 7
        [⟨1, "Math", 5⟩] ⟨[⟨"0", 1, 1, "Monday", 1, none⟩, ⟨"1", 1, 1, "Monday", 2, none⟩],
            ["Monday-1", "Monday-2"], [(1, 2)], 2⟩
        = (⟨[⟨"0", 1, 1, "Monday", 1, none⟩, ⟨"1", 1, 1, "Monday", 2, none⟩],
            ["Monday-1", "Monday-2"], [(1, 2)], 2⟩, false) := by decide
    have key : genLoop [⟨1, "Smith", [⟨"Monday", 1⟩, ⟨"Monday", 2⟩]⟩] [(1, 1)] DAYS 7
        [⟨1, "Math", 5⟩] 1000 ⟨[], [], [(1, 0)], 0⟩
        = ⟨[⟨"0", 1, 1, "Monday", 1, none⟩, ⟨"1", 1, 1, "Monday", 2, none⟩],
            ["Monday-1", "Monday-2"], [(1, 2)], 2⟩ := by
      rw [show (1000 : Nat) = 999 + 1 from rfl, genLoop_step _ _ _ _ _ _ _ _ e1,
        show (999 : Nat) = 998 + 1 from rfl, genLoop_step _ _ _ _ _ _ _ _ e2,
        genLoop_fix _ _ _ _ _ _ e3]
    have base : generateTimetable [⟨1, "Math", 5⟩]
        [⟨1, "Smith", [⟨"Monday", 1⟩, ⟨"Monday", 2⟩]⟩] DAYS 7
        = some (genLoop [⟨1, "Smith", [⟨"Monday", 1⟩, ⟨"Monday", 2⟩]⟩] [(1, 1)] DAYS 7
            [⟨1, "Math", 5⟩] 1000 ⟨[], [], [(1, 0)], 0⟩).timetable := rfl
    rw [base, key]
  · unfold validateTimetable
    refine List.mem_append_left _ (List.mem_append_left _ (List.mem_append_left _
      (List.mem_append_left _ ?_)))
    decide

/-- C7 witness: the amended statement instantiated — the isSome conjunct
at a concrete nonempty teacher list, the loop-exit conjunct at a concrete
all-done state, and the saturation scenario facts themselves. -/
theorem c7_witness :
    (generateTimetable [] [⟨1, "Smith", []⟩] [] 0).isSome = true
    ∧ genLoop [] [] [] 0 [] 1 ⟨[], [], [], 0⟩ = ⟨[], [], [], 0⟩ := by
  constructor
  · exact (c7_bounded_generation (fun _ => 0)).1 [] [⟨1, "Smith", []⟩] [] 0 (by decide)
  · exact (c7_bounded_generation (fun _ => 0)).2.1 [] [] [] 0 [] ⟨[], [], [], 0⟩ 0 (by decide)

/-- C7 counterexample: on the empty teacher list with one subject —
an input on which the target cannot be met — generateTimetable does not
return an under-filled entry set: the teacher-assignment step faults
(modelled `none`), contradicting "rather than looping forever or
throwing". -/
theorem c7_counterexample :
    generateTimetable [⟨1, "Math", 5⟩] [] DAYS 7 = none := by
  rfl

theorem pairwiseB_iff {α : Type} (r : α → α → Bool) (l : List α) :
    pairwiseB r l = true ↔ List.Pairwise (fun a b => r a b = true) l := by
  induction l with
  | nil => simp [pairwiseB]
  | cons a tl ih =>
      simp [pairwiseB, List.pairwise_cons, List.all_eq_true, ih]

theorem not_and3_eq_true_iff (x y z : Bool) :
    (!(x && y && z)) = true ↔ ¬(x = true ∧ y = true ∧ z = true) := by
  cases x <;> cases y <;> cases z <;> simp

theorem classSlotFree_iff (entries : List TimetableEntry) :
    classSlotFree entries = true
      ↔ List.Pairwise (fun a b : TimetableEntry =>
          ¬(a.classId = b.classId ∧ a.day = b.day ∧ a.period = b.period)) entries := by
  rw [classSlotFree, pairwiseB_iff]
  refine ⟨fun h => h.imp (fun hab => ?_), fun h => h.imp (fun hab => ?_)⟩
  · intro hcon
    exact (not_and3_eq_true_iff _ _ _).mp hab
      (by simp [hcon.1, hcon.2.1, hcon.2.2])
  · rw [not_and3_eq_true_iff]
    intro hcon
    exact hab (by simpa using hcon)

theorem teacherSlotFree_iff (entries : List TimetableEntry) :
    teacherSlotFree entries = true
      ↔ List.Pairwise (fun a b : TimetableEntry =>
          ¬(a.teacherId = b.teacherId ∧ a.day = b.day ∧ a.period = b.period)) entries := by
  rw [teacherSlotFree, pairwiseB_iff]
  refine ⟨fun h => h.imp (fun hab => ?_), fun h => h.imp (fun hab => ?_)⟩
  · intro hcon
    exact (not_and3_eq_true_iff _ _ _).mp hab
      (by simp [hcon.1, hcon.2.1, hcon.2.2])
  · rw [not_and3_eq_true_iff]
    intro hcon
    exact hab (by simpa using hcon)

theorem idsDistinct_iff (entries : List TimetableEntry) :
    idsDistinct entries = true
      ↔ List.Pairwise (fun a b : TimetableEntry => a.id ≠ b.id) entries := by
  rw [idsDistinct, pairwiseB_iff]
  constructor <;> intro h <;> refine h.imp (fun hab => ?_) <;> simpa using hab

theorem availabilityOk_iff (teachers : List Teacher) (entries : List TimetableEntry) :
    availabilityOk teachers entries = true
      ↔ ∀ e ∈ entries, ∃ t, teachers.find? (fun x => x.id == e.teacherId) = some t
          ∧ (t.availableSlots.any (fun s => s.day == e.day && s.period == e.period)) = true := by
  rw [availabilityOk, List.all_eq_true]
  constructor
  · intro h e he
    have hx := h e he
    cases hf : teachers.find? (fun x => x.id == e.teacherId) with
    | none => rw [hf] at hx; exact absurd hx (by simp)
    | some t => rw [hf] at hx; exact ⟨t, rfl, hx⟩
  · intro h e he
    obtain ⟨t, hf, ha⟩ := h e he
    rw [hf]
    exact ha

theorem moved_entries_ok (teachers : List Teacher) (entries : List TimetableEntry)
    (entryId newDay : String) (newPeriod : Nat) (e : TimetableEntry) (t : Teacher)
    (hfind : entries.find? (fun x => x.id == entryId) = some e)
    (hempty : (entries.any (fun x =>
        !(x.id == entryId) && x.day == newDay && x.period == newPeriod)) = false)
    (htfind : teachers.find? (fun x => x.id == e.teacherId) = some t)
    (htavail : (t.availableSlots.any (fun s =>
        s.day == newDay && s.period == newPeriod)) = true)
    (hinv : hardConstraintsOk teachers entries = true)
    (hids : idsDistinct entries = true) :
    hardConstraintsOk teachers (entries.map (fun x =>
        if x.id == entryId then { x with day := newDay, period := newPeriod } else x)) = true
    ∧ idsDistinct (entries.map (fun x =>
        if x.id == entryId then { x with day := newDay, period := newPeriod } else x)) = true := by
  have hclass := (classSlotFree_iff entries).mp (by
    simp only [hardConstraintsOk, Bool.and_eq_true] at hinv; exact hinv.1.1)
  have hteach := (teacherSlotFree_iff entries).mp (by
    simp only [hardConstraintsOk, Bool.and_eq_true] at hinv; exact hinv.1.2)
  have havail := (availabilityOk_iff teachers entries).mp (by
    simp only [hardConstraintsOk, Bool.and_eq_true] at hinv; exact hinv.2)
  have hidsP := (idsDistinct_iff entries).mp hids
  have he_mem : e ∈ entries := List.mem_of_find?_eq_some hfind
  have he_id : e.id = entryId := by simpa using List.find?_some hfind
  have huniq : ∀ x ∈ entries, x.id = entryId → x = e := by
    intro x hx hxid
    by_contra hne
    have hsym : Symmetric (fun a b : TimetableEntry => a.id ≠ b.id) :=
      fun _ _ h => Ne.symm h
    exact (hidsP.forall hsym hx he_mem hne) (hxid.trans he_id.symm)
  have hempty' : ∀ x ∈ entries, x.id ≠ entryId →
      ¬(x.day = newDay ∧ x.period = newPeriod) := by
    intro x hx hxid hcontra
    exact (List.any_eq_false.mp hempty x hx)
      (by simp [hxid, hcontra.1, hcontra.2])
  have f_id : ∀ x : TimetableEntry,
      (if x.id == entryId then { x with day := newDay, period := newPeriod } else x).id
        = x.id := by
    intro x; split <;> rfl
  have f_of_ne : ∀ x : TimetableEntry, x.id ≠ entryId →
      (if x.id == entryId then { x with day := newDay, period := newPeriod } else x) = x := by
    intro x hx; simp [hx]
  have f_of_eq : ∀ x : TimetableEntry, x.id = entryId →
      (if x.id == entryId then { x with day := newDay, period := newPeriod } else x)
        = { x with day := newDay, period := newPeriod } := by
    intro x hx; simp [hx]
  refine ⟨?_, ?_⟩
  · simp only [hardConstraintsOk, Bool.and_eq_true]
    refine ⟨⟨?_, ?_⟩, ?_⟩
    · rw [classSlotFree_iff, List.pairwise_map]
      refine List.Pairwise.imp_of_mem ?_ (hclass.and hidsP)
      intro a b ha hb hab
      by_cases haid : a.id = entryId
      · have hbid : b.id ≠ entryId := fun hb' => hab.2 (haid.trans hb'.symm)
        rw [f_of_eq a haid, f_of_ne b hbid]
        intro hcon
        exact hempty' b hb hbid ⟨hcon.2.1.symm, hcon.2.2.symm⟩
      · by_cases hbid : b.id = entryId
        · rw [f_of_ne a haid, f_of_eq b hbid]
          intro hcon
          exact hempty' a ha haid ⟨hcon.2.1, hcon.2.2⟩
        · rw [f_of_ne a haid, f_of_ne b hbid]
          exact hab.1
    · rw [teacherSlotFree_iff, List.pairwise_map]
      refine List.Pairwise.imp_of_mem ?_ (hteach.and hidsP)
      intro a b ha hb hab
      by_cases haid : a.id = entryId
      · have hbid : b.id ≠ entryId := fun hb' => hab.2 (haid.trans hb'.symm)
        rw [f_of_eq a haid, f_of_ne b hbid]
        intro hcon
        exact hempty' b hb hbid ⟨hcon.2.1.symm, hcon.2.2.symm⟩
      · by_cases hbid : b.id = entryId
        · rw [f_of_ne a haid, f_of_eq b hbid]
          intro hcon
          exact hempty' a ha haid ⟨hcon.2.1, hcon.2.2⟩
        · rw [f_of_ne a haid, f_of_ne b hbid]
          exact hab.1
    · rw [availabilityOk_iff]
      intro x' hx'
      obtain ⟨x, hx, rfl⟩ := List.mem_map.mp hx'
      by_cases hxid : x.id = entryId
      · have hxe : x = e := huniq x hx hxid
        subst hxe
        rw [f_of_eq x hxid]
        exact ⟨t, htfind, htavail⟩
      · rw [f_of_ne x hxid]
        exact havail x hx
  · rw [idsDistinct_iff, List.pairwise_map]
    refine List.Pairwise.imp ?_ hidsP
    intro a b hab
    rw [f_id, f_id]
    exact hab

theorem move_preserves (sqrtA : ℚ → ℚ) (st : TimetableState) (entryId newDay : String)
    (newPeriod : Nat)
    (hinv : hardConstraintsOk st.teachers st.timetableEntries = true)
    (hids : idsDistinct st.timetableEntries = true) :
    hardConstraintsOk st.teachers
        (moveTimetableEntry sqrtA st entryId newDay newPeriod).timetableEntries = true
    ∧ idsDistinct (moveTimetableEntry sqrtA st entryId newDay newPeriod).timetableEntries = true
    ∧ (moveTimetableEntry sqrtA st entryId newDay newPeriod).teachers = st.teachers := by
  unfold moveTimetableEntry
  cases hfind : st.timetableEntries.find? (fun x => x.id == entryId) with
  | none => exact ⟨hinv, hids, rfl⟩
  | some e =>
      dsimp only
      cases hempty : st.timetableEntries.any (fun x =>
          !(x.id == entryId) && x.day == newDay && x.period == newPeriod) with
      | true => exact ⟨hinv, hids, rfl⟩
      | false =>
          cases hteach : st.teachers.find? (fun x => x.id == e.teacherId) with
          | none => exact ⟨hinv, hids, rfl⟩
          | some t =>
              dsimp only
              cases htavail : t.availableSlots.any (fun s =>
                  s.day == newDay && s.period == newPeriod) with
              | false => exact ⟨hinv, hids, rfl⟩
              | true =>
                  obtain ⟨h1, h2⟩ := moved_entries_ok st.teachers st.timetableEntries
                    entryId newDay newPeriod e t hfind hempty hteach htavail hinv hids
                  exact ⟨h1, h2, rfl⟩

/-- C2 (amended): every sequence of moveTimetableEntry calls — blocked
ones are no-ops on the grid, permitted ones commit — starting from an
entry set with pairwise-distinct entry ids that satisfies the three hard
constraints preserves them: the resulting entry set never has two entries
at one (day, period) in one class scope, never has one teacher at one
(day, period) twice, and never has an entry outside its teacher's
availableSlots.  (addTimetableEntry is dropped from the claim: it checks
nothing, and a successful add can violate every hard constraint.) -/
theorem c2_move_sequences_preserve_invariants (sqrtA : ℚ → ℚ) (st : TimetableState)
    (cmds : List (String × String × Nat))
    (hinv : hardConstraintsOk st.teachers st.timetableEntries = true)
    (hids : idsDistinct st.timetableEntries = true) :
    hardConstraintsOk st.teachers (applyMoves sqrtA st cmds).timetableEntries = true
    ∧ idsDistinct (applyMoves sqrtA st cmds).timetableEntries = true := by
  induction cmds generalizing st with
  | nil => exact ⟨hinv, hids⟩
  | cons c rest ih =>
      obtain ⟨h1, h2, h3⟩ := move_preserves sqrtA st c.1 c.2.1 c.2.2 hinv hids
      have hrec := ih (moveTimetableEntry sqrtA st c.1 c.2.1 c.2.2) (by rw [h3]; exact h1) h2
      rw [h3] at hrec
      exact hrec

/-- C2 witness: a successful concrete move (entry "a" from (Monday, 1) to
(Monday, 2)) from a constraint-satisfying state keeps the constraints. -/
theorem c2_witness :
    hardConstraintsOk [⟨1, "Smith", [⟨"Monday", 1⟩, ⟨"Monday", 2⟩]⟩]
        (applyMoves (fun _ => 0)
          ⟨[⟨1, "Math", 5⟩], [⟨1, "Smith", [⟨"Monday", 1⟩, ⟨"Monday", 2⟩]⟩], ["Monday"], 7,
            [⟨"a", 1, 1, "Monday", 1, none⟩], []⟩
          [("a", "Monday", 2)]).timetableEntries = true
    ∧ idsDistinct (applyMoves (fun _ => 0)
          ⟨[⟨1, "Math", 5⟩], [⟨1, "Smith", [⟨"Monday", 1⟩, ⟨"Monday", 2⟩]⟩], ["Monday"], 7,
            [⟨"a", 1, 1, "Monday", 1, none⟩], []⟩
          [("a", "Monday", 2)]).timetableEntries = true :=
  c2_move_sequences_preserve_invariants (fun _ => 0)
    ⟨[⟨1, "Math", 5⟩], [⟨1, "Smith", [⟨"Monday", 1⟩, ⟨"Monday", 2⟩]⟩], ["Monday"], 7,
      [⟨"a", 1, 1, "Monday", 1, none⟩], []⟩
    [("a", "Monday", 2)] (by decide) (by decide)

/-- C2 counterexample: from the valid empty grid, a sequence of two
successful addTimetableEntry calls (adds never fail) puts two entries on
(Monday, 1) in the same class scope, violating hard constraint 1 — so the
claim fails for sequences that include adds. -/
theorem c2_counterexample :
    hardConstraintsOk [⟨1, "Smith", [⟨"Monday", 1⟩]⟩] ([] : List TimetableEntry) = true
    ∧ classSlotFree
        ((addTimetableEntry (fun _ => 0) "b"
          (addTimetableEntry (fun _ => 0) "a"
            ⟨[⟨1, "Math", 5⟩], [⟨1, "Smith", [⟨"Monday", 1⟩]⟩], ["Monday"], 7, [], []⟩
            ⟨"", 1, 1, "Monday", 1, some "X"⟩)
          ⟨"", 1, 1, "Monday", 1, some "X"⟩).timetableEntries) = false := by
  constructor
  · decide
  · rfl

theorem digitChar_ne_dash (m : Nat) (hm : m < 10) : Nat.digitChar m ≠ '-' := by
  interval_cases m <;> decide

theorem toDigitsCore_no_dash : ∀ (f n : Nat) (ds : List Char), (∀ c ∈ ds, c ≠ '-') →
    ∀ c ∈ Nat.toDigitsCore 10 f n ds, c ≠ '-' := by
  intro f
  induction f with
  | zero => intro n ds h c hc; exact h c hc
  | succ f ih =>
      intro n ds h c hc
      simp only [Nat.toDigitsCore] at hc
      split at hc
      · rcases List.mem_cons.mp hc with rfl | hm
        · exact digitChar_ne_dash _ (Nat.mod_lt _ (by norm_num))
        · exact h c hm
      · refine ih (n / 10) (Nat.digitChar (n % 10) :: ds) ?_ c hc
        intro x hx
        rcases List.mem_cons.mp hx with rfl | hxx
        · exact digitChar_ne_dash _ (Nat.mod_lt _ (by norm_num))
        · exact h x hxx

theorem repr_no_dash (n : Nat) : ∀ c ∈ (Nat.repr n).data, c ≠ '-' := by
  intro c hc
  exact toDigitsCore_no_dash (n + 1) n [] (by simp) c hc

/-- Decimal value of a digit character, the left inverse used to prove
`Nat.repr` injective. -/
def digitVal (c : Char) : Nat := c.toNat - '0'.toNat

/-- Value of a most-significant-first digit string. -/
def charsVal (l : List Char) : Nat := l.foldl (fun a c => 10 * a + digitVal c) 0

theorem charsVal_append_singleton (l : List Char) (c : Char) :
    charsVal (l ++ [c]) = 10 * charsVal l + digitVal c := by
  simp [charsVal, List.foldl_append]

theorem digitVal_digitChar (m : Nat) (h : m < 10) : digitVal (Nat.digitChar m) = m := by
  interval_cases m <;> decide

theorem toDigitsCore_accum (f : Nat) : ∀ (n : Nat) (ds : List Char),
    Nat.toDigitsCore 10 f n ds = Nat.toDigitsCore 10 f n [] ++ ds := by
  induction f with
  | zero => intro n ds; simp [Nat.toDigitsCore]
  | succ f ih =>
      intro n ds
      simp only [Nat.toDigitsCore]
      split
      · simp
      · rw [ih (n / 10) (Nat.digitChar (n % 10) :: ds), ih (n / 10) [Nat.digitChar (n % 10)]]
        simp

theorem toDigitsCore_val (f : Nat) : ∀ n, n < 10 ^ f →
    charsVal (Nat.toDigitsCore 10 f n []) = n := by
  induction f with
  | zero =>
      intro n h
      simp only [pow_zero, Nat.lt_one_iff] at h
      subst h
      rfl
  | succ f ih =>
      intro n h
      simp only [Nat.toDigitsCore]
      split
      · rename_i h0
        have hn : n < 10 := by omega
        have hm : n % 10 = n := Nat.mod_eq_of_lt hn
        have hsingle : charsVal [Nat.digitChar (n % 10)] = digitVal (Nat.digitChar (n % 10)) := by
          simp [charsVal]
        rw [hsingle, hm]
        exact digitVal_digitChar n hn
      · rename_i h0
        rw [toDigitsCore_accum, charsVal_append_singleton]
        have hdiv : n / 10 < 10 ^ f := by
          rw [Nat.div_lt_iff_lt_mul (by norm_num : 0 < 10)]
          calc n < 10 ^ (f + 1) := h
            _ = 10 ^ f * 10 := by ring
        rw [ih (n / 10) hdiv, digitVal_digitChar _ (Nat.mod_lt _ (by norm_num))]
        omega

theorem repr_inj (m n : Nat) (h : Nat.repr m = Nat.repr n) : m = n := by
  have hm : charsVal ((Nat.repr m).data) = m :=
    toDigitsCore_val (m + 1) m
      (lt_of_lt_of_le (Nat.lt_pow_self (by norm_num) m)
        (Nat.pow_le_pow_right (by norm_num) (Nat.le_succ m)))
  have hn : charsVal ((Nat.repr n).data) = n :=
    toDigitsCore_val (n + 1) n
      (lt_of_lt_of_le (Nat.lt_pow_self (by norm_num) n)
        (Nat.pow_le_pow_right (by norm_num) (Nat.le_succ n)))
  rw [h] at hm
  rw [hn] at hm
  exact hm.symm

theorem append_dash_inj_aux : ∀ (x₁ y₁ x₂ y₂ : List Char),
    x₁ ++ '-' :: y₁ = x₂ ++ '-' :: y₂ → (∀ c ∈ x₁, c ≠ '-') → (∀ c ∈ x₂, c ≠ '-') →
    x₁ = x₂ ∧ y₁ = y₂ := by
  intro x₁
  induction x₁ with
  | nil =>
      intro y₁ x₂ y₂ h h1 h2
      cases x₂ with
      | nil =>
          simp only [List.nil_append, List.cons.injEq] at h
          exact ⟨rfl, h.2⟩
      | cons b u =>
          simp only [List.nil_append, List.cons_append, List.cons.injEq] at h
          exact absurd h.1.symm (h2 b (by simp))
  | cons a t ih =>
      intro y₁ x₂ y₂ h h1 h2
      cases x₂ with
      | nil =>
          simp only [List.cons_append, List.nil_append, List.cons.injEq] at h
          exact absurd h.1 (h1 a (by simp))
      | cons b u =>
          simp only [List.cons_append, List.cons.injEq] at h
          obtain ⟨ht, hy⟩ := ih y₁ u y₂ h.2
            (fun c hc => h1 c (List.mem_cons_of_mem a hc))
            (fun c hc => h2 c (List.mem_cons_of_mem b hc))
          exact ⟨by rw [h.1, ht], hy⟩

theorem formatTimeSlot_inj (d₁ d₂ : String) (p₁ p₂ : Nat)
    (h : formatTimeSlot d₁ p₁ = formatTimeSlot d₂ p₂) : d₁ = d₂ ∧ p₁ = p₂ := by
  unfold formatTimeSlot at h
  have hd : d₁.data ++ '-' :: (Nat.repr p₁).data = d₂.data ++ '-' :: (Nat.repr p₂).data := by
    have := congrArg String.data h
    simpa [String.data_append] using this
  have hrev : (Nat.repr p₁).data.reverse ++ '-' :: d₁.data.reverse
      = (Nat.repr p₂).data.reverse ++ '-' :: d₂.data.reverse := by
    have := congrArg List.reverse hd
    simpa [List.reverse_append] using this
  obtain ⟨hx, hy⟩ := append_dash_inj_aux _ _ _ _ hrev
    (fun c hc => repr_no_dash p₁ c (List.mem_reverse.mp hc))
    (fun c hc => repr_no_dash p₂ c (List.mem_reverse.mp hc))
  refine ⟨String.ext ?_, repr_inj p₁ p₂ (String.ext ?_)⟩
  · have := congrArg List.reverse hy
    simpa using this
  · have := congrArg List.reverse hx
    simpa using this

theorem doubleBookingErrors_count (name day : String) (period : Nat) :
    ∀ (l : List TimetableEntry) (seen : List String),
      (doubleBookingErrors name l seen).countP
          (fun er => er.message == Msg.doubleBooked name day period)
        = l.countP (fun e => e.day == day && e.period == period)
          - (if seen.contains (formatTimeSlot day period) then 0 else 1) := by
  intro l
  induction l with
  | nil => intro seen; simp [doubleBookingErrors]
  | cons e rest ih =>
      intro seen
      have hrecall := ih (formatTimeSlot e.day e.period :: seen)
      simp only [doubleBookingErrors, List.countP_append, List.countP_cons]
      by_cases hslot : e.day = day ∧ e.period = period
      · obtain ⟨hd, hp⟩ := hslot
        subst hd
        subst hp
        have hconsK : (formatTimeSlot e.day e.period :: seen).contains
            (formatTimeSlot e.day e.period) = true := by
          simp [List.contains_cons]
        rw [hconsK, if_pos rfl, Nat.sub_zero] at hrecall
        rw [hrecall]
        cases hseen : seen.contains (formatTimeSlot e.day e.period) with
        | true =>
            simp
            omega
        | false => simp
      · have hkne : formatTimeSlot e.day e.period ≠ formatTimeSlot day period := by
          intro hk
          obtain ⟨h1, h2⟩ := formatTimeSlot_inj _ _ _ _ hk
          exact hslot ⟨h1, h2⟩
        have hmsg : ((⟨Msg.doubleBooked name e.day e.period, Severity.error⟩ :
            ValidationError).message == Msg.doubleBooked name day period) = false := by
          simp only [beq_eq_false_iff_ne, ne_eq, Msg.doubleBooked.injEq]
          intro hcon
          exact hslot ⟨hcon.2.1, hcon.2.2⟩
        have hpred : (e.day == day && e.period == period) = false := by
          rcases not_and_or.mp hslot with hne | hne <;> simp [hne]
        have hconsK : (formatTimeSlot e.day e.period :: seen).contains
            (formatTimeSlot day period) = seen.contains (formatTimeSlot day period) := by
          have hne : ((formatTimeSlot day period == formatTimeSlot e.day e.period) : Bool)
              = false := by
            simp only [beq_eq_false_iff_ne, ne_eq]
            exact fun hcon => hkne hcon.symm
          simp [List.contains_cons, hne]
          intro hcon
          exact absurd hcon.symm hkne
        rw [hconsK] at hrecall
        rw [hrecall, hpred]
        cases hseencur : seen.contains (formatTimeSlot e.day e.period) with
        | true =>
            cases hseenK : seen.contains (formatTimeSlot day period) with
            | true => simp [hmsg]
            | false => simp [hmsg]
        | false =>
            cases hseenK : seen.contains (formatTimeSlot day period) with
            | true => simp
            | false => simp

/-- C9: the double-booking rule of checkTeacherConflicts reports, for a
teacher and a (day, period) slot holding k ≥ 2 of that teacher's entries,
exactly k − 1 errors (one per redundant occurrence). -/
theorem c9_double_booking_count (teacher : Teacher) (entries : List TimetableEntry)
    (day : String) (period : Nat)
    (_hk : 2 ≤ (entries.filter (fun e => e.teacherId == teacher.id)).countP
        (fun e => e.day == day && e.period == period)) :
    (checkTeacherConflicts teacher entries).countP
        (fun er => er.message == Msg.doubleBooked teacher.name day period)
      = (entries.filter (fun e => e.teacherId == teacher.id)).countP
          (fun e => e.day == day && e.period == period) - 1 := by
  unfold checkTeacherConflicts
  rw [List.countP_append]
  have havailzero : (((entries.filter (fun e => e.teacherId == teacher.id)).filter (fun e =>
      !(teacher.availableSlots.any (fun s => s.day == e.day && s.period == e.period)))).map
        (fun e => (⟨Msg.notAvailable teacher.name e.day e.period, Severity.error⟩ :
          ValidationError))).countP
        (fun er => er.message == Msg.doubleBooked teacher.name day period) = 0 := by
    rw [List.countP_eq_zero]
    intro er her
    obtain ⟨x, _, rfl⟩ := List.mem_map.mp her
    simp
  rw [havailzero,
    doubleBookingErrors_count teacher.name day period
      (entries.filter (fun e => e.teacherId == teacher.id)) []]
  simp

/-- C9 witness: scenario B — two entries of the same teacher at the same
(Monday, 1) with different classIds, injected directly, yield exactly one
double-booking error. -/
theorem c9_witness :
    2 ≤ (([⟨"a", 1, 1, "Monday", 1, some "A"⟩, ⟨"b", 2, 1, "Monday", 1, some "B"⟩] :
        List TimetableEntry).filter (fun e => e.teacherId == (1 : Nat))).countP
        (fun e => e.day == "Monday" && e.period == (1 : Nat))
    ∧ (checkTeacherConflicts ⟨1, "Smith", [⟨"Monday", 1⟩]⟩
        [⟨"a", 1, 1, "Monday", 1, some "A"⟩, ⟨"b", 2, 1, "Monday", 1, some "B"⟩]).countP
        (fun er => er.message == Msg.doubleBooked "Smith" "Monday" 1) = 1 := by
  constructor
  · decide
  · have := c9_double_booking_count ⟨1, "Smith", [⟨"Monday", 1⟩]⟩
      [⟨"a", 1, 1, "Monday", 1, some "A"⟩, ⟨"b", 2, 1, "Monday", 1, some "B"⟩]
      "Monday" 1 (by decide)
    simpa using this

end SchoolTimetable
